import Mathlib

/-!
# Ark wallet gateway (`server/main.go`): a shallow embedding

The gateway is a set of HTTP handlers over an external wallet engine (the Ark
client SDK).  Handlers are embedded as pure functions that thread the engine's
state explicitly and return, next to the HTTP response, the list of engine
calls they made, in order.  `uint64` values are naturals with explicit
reduction modulo `2 ^ 64`; `float64` values are modelled exactly (sign,
integer significand, binary exponent) with round-to-nearest-even products.
-/

namespace ArkWallet

/-! ## Machine numbers -/

/-- The number of `uint64` values. -/
def uint64Size : Nat := 2 ^ 64

/-- Go `uint64` multiplication. -/
def mul64 (a b : Nat) : Nat := (a * b) % uint64Size

/-- Go `uint64` addition. -/
def add64 (a b : Nat) : Nat := (a + b) % uint64Size

/-- Go `uint64` subtraction (wraps below zero, operands below `2 ^ 64`). -/
def sub64 (a b : Nat) : Nat := (a + uint64Size - b) % uint64Size

/-- A `float64` value.  `finite neg m e` is `(-1)^neg * m * 2^e`; the values of
the format are those with `m < 2 ^ 53`, `-1074 ≤ e` and magnitude below
`2 ^ 1024`. -/
inductive Float64 where
  | finite (neg : Bool) (mant : Nat) (exp : Int)
  | inf (neg : Bool)
  | nan
  deriving DecidableEq, Repr

/-- The number of significant bits of `x` (`0` for `0`); `fuel` bounds the
number of halvings and any `fuel ≥ x` suffices. -/
def bitLengthAux : Nat → Nat → Nat
  | 0, _ => 0
  | fuel + 1, x => if x = 0 then 0 else bitLengthAux fuel (x / 2) + 1

/-- The number of significant bits of `n`. -/
def bitLength (n : Nat) : Nat := bitLengthAux n n

/-- Shift `n` right by `k` bits, rounding to nearest, ties to even. -/
def roundShift (n k : Nat) : Nat :=
  let q := n / 2 ^ k
  let r := n % 2 ^ k
  if 2 * r < 2 ^ k then q
  else if 2 ^ k < 2 * r then q + 1
  else if q % 2 = 0 then q else q + 1

/-- The `float64` product `x * 100.0` (IEEE 754, round to nearest even).  The
exact product of `m * 2^e` and `100` is `(100 m) * 2^e`; it is rounded to 53
significant bits.  The exponent never decreases, so no result is subnormal
unless it is exact.  A product whose magnitude reaches `2 ^ 1024` is `+Inf` or
`-Inf`. -/
def mulVbytes : Float64 → Float64
  | .finite neg m e =>
    let n := m * 100
    let k := bitLength n - 53
    let m' := roundShift n k
    if 0 ≤ e + k - 971 ∧ 2 ^ 53 ≤ m' * 2 ^ (e + k - 971).toNat then .inf neg
    else .finite neg m' (e + k)
  | .inf neg => .inf neg
  | .nan => .nan

/-- The integer part of the magnitude of a finite value `m * 2^e`. -/
def truncMagnitude (m : Nat) (e : Int) : Nat :=
  if 0 ≤ e then m * 2 ^ e.toNat else m / 2 ^ (-e).toNat

/-- The conversion `uint64(f)`: truncation toward zero when the truncated value
is a `uint64`.  For every other operand (negative beyond `-1`, `2 ^ 64` or
more, infinite, NaN) Go leaves the result implementation-dependent: `oor` is
the value the platform yields for this operand. -/
def toUint64 (oor : Nat) : Float64 → Nat
  | .finite neg m e =>
    let t := truncMagnitude m e
    if t = 0 then 0
    else if neg then oor % uint64Size
    else if t < uint64Size then t else oor % uint64Size
  | .inf _ => oor % uint64Size
  | .nan => oor % uint64Size

/-- The exact rational value of a finite `float64`. -/
def Float64.toRat : Float64 → ℚ
  | .finite neg m e => (if neg then -1 else 1) * (m : ℚ) * (2 : ℚ) ^ e
  | .inf _ => 0
  | .nan => 0

/-! ## Wire types (lines 24-52) -/

structure WalletInfo where
  OffchainAddress : String
  BoardingAddress : String
  deriving DecidableEq, Repr

structure SendRequest where
  Network : String
  To : String
  Amount : Nat
  deriving DecidableEq, Repr

structure BalanceInfo where
  OffchainBalance : Nat
  OnchainBalance : Nat
  deriving DecidableEq, Repr

structure UTXO where
  Amount : Nat
  Locked : Bool
  Spendable : Bool
  deriving DecidableEq, Repr

structure Breakdown where
  NetworkFee : Nat
  ServiceFee : Nat
  deriving DecidableEq, Repr

structure FeeEstimate where
  TotalFee : Nat
  Breakdown : Breakdown
  deriving DecidableEq, Repr

/-! ## Fee arithmetic (lines 147-151) -/

/-- Lines 149-151 of `estimateFee`: the estimate built from `total`. -/
def feeEstimateOf (total : Nat) : FeeEstimate :=
  let networkFee := mul64 total 8 / 10
  { TotalFee := total
    Breakdown := { NetworkFee := networkFee, ServiceFee := sub64 total networkFee } }

/-- Lines 147-151 of `estimateFee`: `total := uint64(feeRate * vbytes)` followed
by the split. -/
def estimateOfRate (oor : Nat) (feeRate : Float64) : FeeEstimate :=
  feeEstimateOf (toUint64 oor (mulVbytes feeRate))

/-! ## The wallet engine and the HTTP surface

The SDK's types are outside the repository; each is modelled with the fields
the gateway reads or writes. -/

/-- An off-chain output as `ListVtxos` returns it; the gateway reads `Amount`. -/
structure Vtxo where
  Outpoint : String
  Amount : Nat
  deriving DecidableEq, Repr

/-- The result of `arksdk.NewBitcoinReceiver(to, amount)`. -/
structure Receiver where
  To : String
  Amount : Nat
  deriving DecidableEq, Repr

/-- The result of `GetConfigData`; the gateway reads these two fields. -/
structure ConfigData where
  ExplorerURL : String
  Network : String
  deriving DecidableEq, Repr

/-- The result of `Balance`; the gateway reads
`OnchainBalance.SpendableAmount`. -/
structure Balance where
  OnchainSpendableAmount : Nat
  OffchainBalance : Nat
  deriving DecidableEq, Repr

/-- The wallet engine (`sdkClient`) together with the fee-rate explorer, as a
state machine: every operation takes the engine state and returns its result
(`Except.error` carries the text of the Go `error`) and the next state.
Arguments are in the order of the Go call, the context left out. -/
structure Engine (σ : Type) where
  Receive : σ → Except String (String × String) × σ
  GetConfigData : σ → Except String ConfigData × σ
  GetFeeRate : String → String → σ → Except String Float64 × σ
  ListVtxos : σ → Except String (List Vtxo × List Vtxo) × σ
  Settle : σ → Except String String × σ
  Balance : Bool → σ → Except String Balance × σ
  SendOffChain : Bool → List Receiver → Bool → σ → Except String String × σ
  CollaborativeExit : String → Nat → Bool → σ → Except String String × σ

/-- An engine call as the gateway issues it, with its arguments. -/
inductive Call where
  | Receive
  | GetConfigData
  | GetFeeRate (explorerURL network : String)
  | ListVtxos
  | Settle
  | Balance (computeExpiryDetails : Bool)
  | SendOffChain (withExpiryCoinselect : Bool) (receivers : List Receiver) (lastFlag : Bool)
  | CollaborativeExit (addr : String) (amount : Nat) (withExpiryCoinselect : Bool)
  deriving DecidableEq, Repr

/-- A JSON value met as the value of an object member.  `uint n` is a number
literal made of decimal digits only, denoting `n`; `number` is any other number
literal (signed, fractional or with an exponent); `composite` is an array or an
object. -/
inductive JValue where
  | null
  | bool (b : Bool)
  | uint (n : Nat)
  | number
  | string (s : String)
  | composite
  deriving DecidableEq, Repr

/-- A request body as `json.NewDecoder(r.Body).Decode` sees it: text that is
not one JSON value (`malformed`, with the decoder's error), the value `null`,
an object with its members in order, or another JSON value. -/
inductive Body where
  | malformed (err : String)
  | null
  | object (members : List (String × JValue))
  | nonObject
  deriving DecidableEq, Repr

/-- A field of `SendRequest`. -/
inductive Field where
  | Network
  | To
  | Amount
  deriving DecidableEq, Repr

/-- An error of `Decode(&req)`. -/
inductive DecodeError where
  | syntaxError (err : String)
  | typeError (field : Option Field)
  deriving DecidableEq, Repr

/-- The text an error response carries: `err.Error()` of an engine error, of a
decoding error, or a literal. -/
inductive ErrorText where
  | ofError (err : String)
  | ofDecode (err : DecodeError)
  | literal (text : String)
  deriving DecidableEq, Repr

/-- The value handed to `jsonResponse`. -/
inductive Payload where
  | walletInfo (info : WalletInfo)
  | feeEstimate (est : FeeEstimate)
  | utxos (out : List UTXO)
  | balance (info : BalanceInfo)
  | txid (txid : String)
  deriving DecidableEq, Repr

/-- What a handler writes: `http.Error(w, text, code)` or `jsonResponse(w,
data)`, which leaves the status at 200. -/
inductive Response where
  | error (text : ErrorText) (code : Nat)
  | json (data : Payload)
  deriving DecidableEq, Repr

/-- The HTTP status of a response. -/
def Response.status : Response → Nat
  | .error _ code => code
  | .json _ => 200

def StatusBadRequest : Nat := 400

def StatusInternalServerError : Nat := 500

/-- The result of running a handler: the response, the engine calls made in
order, and the engine state left behind. -/
structure Outcome (σ : Type) where
  response : Response
  calls : List Call
  state : σ

/-! ## The standard library: case mapping and JSON decoding -/

/-- The Unicode case tables of the Go standard library, consulted for
non-ASCII runes only: `unicode.ToLower` and the fold-orbit representative used
by `encoding/json` for member names. -/
structure Unicode where
  toLower : Char → Char
  foldRune : Char → Char

/-- The function `strings.ToLower`: ASCII capitals are moved to lower case, other ASCII
runes are kept, non-ASCII runes go through `unicode.ToLower`. -/
def ToLower (U : Unicode) (s : String) : String :=
  String.mk (s.data.map fun c =>
    if c.toNat < 128 then (if 'A' ≤ c ∧ c ≤ 'Z' then Char.ofNat (c.toNat + 32) else c)
    else U.toLower c)

/-- The folded form under which `encoding/json` compares member names case-insensitively:
ASCII small letters are moved to upper case, non-ASCII runes to the
representative of their fold orbit. -/
def foldName (U : Unicode) (s : String) : String :=
  String.mk (s.data.map fun c =>
    if c.toNat < 128 then (if 'a' ≤ c ∧ c ≤ 'z' then Char.ofNat (c.toNat - 32) else c)
    else U.foldRune c)

/-- The struct field a member name selects, by the `json` tags of lines 29-33:
an exact match first, a case-insensitive match otherwise; `none` for a name
that matches no tag (the member is skipped). -/
def findField (U : Unicode) (key : String) : Option Field :=
  if key = "network" then some .Network
  else if key = "to" then some .To
  else if key = "amount" then some .Amount
  else if foldName U key = "NETWORK" then some .Network
  else if foldName U key = "TO" then some .To
  else if foldName U key = "AMOUNT" then some .Amount
  else none

/-- Storing a JSON value into a field of `req`: `null` leaves the field as it
is, a string goes into a `string` field, a digits-only number below `2 ^ 64`
into the `uint64` field; anything else is a type error. -/
def storeField (req : SendRequest) : Field → JValue → Except DecodeError SendRequest
  | _, .null => .ok req
  | .Network, .string s => .ok { req with Network := s }
  | .To, .string s => .ok { req with To := s }
  | .Amount, .uint n =>
    if n < uint64Size then .ok { req with Amount := n } else .error (.typeError (some .Amount))
  | f, _ => .error (.typeError (some f))

/-- Decoding the members of an object in order.  A type error does not stop
the decoder: the first one is kept and reported at the end. -/
def decodeMembers (U : Unicode) :
    List (String × JValue) → SendRequest → Option DecodeError → SendRequest × Option DecodeError
  | [], req, err => (req, err)
  | (key, v) :: rest, req, err =>
    match findField U key with
    | none => decodeMembers U rest req err
    | some f =>
      match storeField req f v with
      | .ok req' => decodeMembers U rest req' err
      | .error e => decodeMembers U rest req (err.orElse fun _ => some e)

/-- The statements `var req SendRequest; err := json.NewDecoder(r.Body).Decode(&req)`. -/
def decodeSendRequest (U : Unicode) : Body → Except DecodeError SendRequest
  | .malformed err => .error (.syntaxError err)
  | .null => .ok { Network := "", To := "", Amount := 0 }
  | .nonObject => .error (.typeError none)
  | .object members =>
    match decodeMembers U members { Network := "", To := "", Amount := 0 } none with
    | (req, none) => .ok req
    | (_, some e) => .error e

/-! ## Handlers (lines 123-258) -/

/-- Handler `createWallet`, lines 123-130. -/
def createWallet {σ : Type} (E : Engine σ) (s : σ) : Outcome σ :=
  match E.Receive s with
  | (.error err, s1) => ⟨.error (.ofError err) StatusInternalServerError, [.Receive], s1⟩
  | (.ok (off, board), s1) =>
    ⟨.json (.walletInfo { OffchainAddress := off, BoardingAddress := board }), [.Receive], s1⟩

/-- Handler `estimateFee`, lines 132-153.  `oor` is the platform's result for a
`float64` that `uint64` cannot hold (see `toUint64`). -/
def estimateFee {σ : Type} (oor : Nat) (E : Engine σ) (s : σ) : Outcome σ :=
  match E.GetConfigData s with
  | (.error err, s1) => ⟨.error (.ofError err) StatusInternalServerError, [.GetConfigData], s1⟩
  | (.ok cfg, s1) =>
    match E.GetFeeRate cfg.ExplorerURL cfg.Network s1 with
    | (.error err, s2) =>
      ⟨.error (.ofError err) StatusInternalServerError,
        [.GetConfigData, .GetFeeRate cfg.ExplorerURL cfg.Network], s2⟩
    | (.ok feeRate, s2) =>
      ⟨.json (.feeEstimate (estimateOfRate oor feeRate)),
        [.GetConfigData, .GetFeeRate cfg.ExplorerURL cfg.Network], s2⟩

/-- The two loops of `listUTXOs`, lines 162-168: `out` starts empty and grows
by one entry per output, spendable outputs first. -/
def utxosOf (spendable spent : List Vtxo) : List UTXO :=
  let out : List UTXO := []
  let out := spendable.foldl
    (fun out u => out ++ [{ Amount := u.Amount, Locked := false, Spendable := true }]) out
  spent.foldl
    (fun out u => out ++ [{ Amount := u.Amount, Locked := true, Spendable := false }]) out

/-- Handler `listUTXOs`, lines 155-170. -/
def listUTXOs {σ : Type} (E : Engine σ) (s : σ) : Outcome σ :=
  match E.ListVtxos s with
  | (.error err, s1) => ⟨.error (.ofError err) StatusInternalServerError, [.ListVtxos], s1⟩
  | (.ok (spendable, spent), s1) => ⟨.json (.utxos (utxosOf spendable spent)), [.ListVtxos], s1⟩

/-- Handler `depositHandler`, lines 172-179. -/
def depositHandler {σ : Type} (E : Engine σ) (s : σ) : Outcome σ :=
  match E.Settle s with
  | (.error err, s1) => ⟨.error (.ofError err) StatusInternalServerError, [.Settle], s1⟩
  | (.ok txid, s1) => ⟨.json (.txid txid), [.Settle], s1⟩

/-- The loop of `balanceHandler`, lines 204-207: a `uint64` accumulator. -/
def offchainBalanceOf (spendable : List Vtxo) : Nat :=
  spendable.foldl (fun offBal u => add64 offBal u.Amount) 0

/-- Handler `balanceHandler`, lines 197-214. -/
def balanceHandler {σ : Type} (E : Engine σ) (s : σ) : Outcome σ :=
  match E.ListVtxos s with
  | (.error err, s1) => ⟨.error (.ofError err) StatusInternalServerError, [.ListVtxos], s1⟩
  | (.ok (spendable, _), s1) =>
    let offBal := offchainBalanceOf spendable
    match E.Balance false s1 with
    | (.error err, s2) =>
      ⟨.error (.ofError err) StatusInternalServerError, [.ListVtxos, .Balance false], s2⟩
    | (.ok onchain, s2) =>
      ⟨.json (.balance { OffchainBalance := offBal
                         OnchainBalance := onchain.OnchainSpendableAmount }),
        [.ListVtxos, .Balance false], s2⟩

/-- Handler `sendPayment`, lines 216-239. -/
def sendPayment {σ : Type} (U : Unicode) (E : Engine σ) (s : σ) (body : Body) : Outcome σ :=
  match decodeSendRequest U body with
  | .error err => ⟨.error (.ofDecode err) StatusBadRequest, [], s⟩
  | .ok req =>
    let network := ToLower U req.Network
    if network = "ark" then
      let receivers : List Receiver := [{ To := req.To, Amount := req.Amount }]
      match E.SendOffChain false receivers true s with
      | (.error err, s1) =>
        ⟨.error (.ofError err) StatusInternalServerError, [.SendOffChain false receivers true], s1⟩
      | (.ok txid, s1) => ⟨.json (.txid txid), [.SendOffChain false receivers true], s1⟩
    else if network = "onchain" then
      match E.CollaborativeExit req.To req.Amount false s with
      | (.error err, s1) =>
        ⟨.error (.ofError err) StatusInternalServerError,
          [.CollaborativeExit req.To req.Amount false], s1⟩
      | (.ok txid, s1) => ⟨.json (.txid txid), [.CollaborativeExit req.To req.Amount false], s1⟩
    else ⟨.error (.literal "invalid network") StatusBadRequest, [], s⟩

/-- Handler `withdrawHandler`, lines 241-258. -/
def withdrawHandler {σ : Type} (U : Unicode) (E : Engine σ) (s : σ) (body : Body) : Outcome σ :=
  match decodeSendRequest U body with
  | .error err => ⟨.error (.ofDecode err) StatusBadRequest, [], s⟩
  | .ok req =>
    match E.Settle s with
    | (.error err, s1) => ⟨.error (.ofError err) StatusInternalServerError, [.Settle], s1⟩
    | (.ok _, s1) =>
      match E.CollaborativeExit req.To req.Amount false s1 with
      | (.error err, s2) =>
        ⟨.error (.ofError err) StatusInternalServerError,
          [.Settle, .CollaborativeExit req.To req.Amount false], s2⟩
      | (.ok txid, s2) =>
        ⟨.json (.txid txid), [.Settle, .CollaborativeExit req.To req.Amount false], s2⟩

/-! ## Session start-up (lines 84-121) -/

/-- The SDK's store kinds (`types.FileStore`, ...). -/
inductive StoreType where
  | InMemoryStore
  | FileStore
  | KVStore
  deriving DecidableEq, Repr

/-- The SDK's wallet kinds. -/
inductive WalletType where
  | SingleKeyWallet
  deriving DecidableEq, Repr

/-- The SDK's transport kinds. -/
inductive ClientType where
  | GrpcClient
  | RestClient
  deriving DecidableEq, Repr

/-- The argument of `store.NewStore`. -/
structure StoreConfig where
  ConfigStoreType : StoreType
  AppDataStoreType : StoreType
  BaseDir : String
  deriving DecidableEq, Repr

/-- The argument of `client.Init`. -/
structure InitArgs where
  WalletType : WalletType
  ClientType : ClientType
  ServerUrl : String
  Password : String
  WithTransactionFeed : Bool
  deriving DecidableEq, Repr

/-- The process environment `setupClient` reads. -/
structure Env where
  AppDataDir : String → Bool → String
  Join : String → String → String
  Getenv : String → String

/-- The SDK's constructors and session operations, as a state machine over the
persistent state `σ`; `S` is a store handle and `C` a client handle.  `Unlock`
and `Init` return the Go `error`, `none` for `nil`. -/
structure Sdk (S C σ : Type) where
  NewStore : StoreConfig → σ → Except String S × σ
  LoadCovenantlessClient : S → σ → Except String C × σ
  Unlock : C → String → σ → Option String × σ
  NewCovenantlessClient : S → σ → Except String C × σ
  Init : C → InitArgs → σ → Option String × σ

/-- An SDK call made during start-up. -/
inductive SetupCall (S C : Type) where
  | NewStore (cfg : StoreConfig)
  | LoadCovenantlessClient (store : S)
  | Unlock (client : C) (password : String)
  | NewCovenantlessClient (store : S)
  | Init (client : C) (args : InitArgs)
  deriving DecidableEq, Repr

/-- The result of `setupClient`: the returned pair `(client, error)` as an
`Except`, the SDK calls made in order, and the state left behind. -/
structure SetupOutcome (S C σ : Type) where
  result : Except String C
  calls : List (SetupCall S C)
  state : σ

/-- The function `setupClient`, lines 84-121. -/
def setupClient {S C σ : Type} (env : Env) (K : Sdk S C σ) (s : σ) : SetupOutcome S C σ :=
  let base := env.Join (env.AppDataDir "ark-wallet" false) "data"
  let storeCfg : StoreConfig :=
    { ConfigStoreType := .FileStore, AppDataStoreType := .KVStore, BaseDir := base }
  match K.NewStore storeCfg s with
  | (.error err, s1) => ⟨.error ("store.NewStore: " ++ err), [.NewStore storeCfg], s1⟩
  | (.ok storeSvc, s1) =>
    match K.LoadCovenantlessClient storeSvc s1 with
    | (.ok client, s2) =>
      let password := env.Getenv "WALLET_PASSWORD"
      match K.Unlock client password s2 with
      | (some unlockErr, s3) =>
        ⟨.error ("client.Unlock: " ++ unlockErr),
          [.NewStore storeCfg, .LoadCovenantlessClient storeSvc, .Unlock client password], s3⟩
      | (none, s3) =>
        ⟨.ok client,
          [.NewStore storeCfg, .LoadCovenantlessClient storeSvc, .Unlock client password], s3⟩
    | (.error _, s2) =>
      match K.NewCovenantlessClient storeSvc s2 with
      | (.error err, s3) =>
        ⟨.error ("NewCovenantlessClient: " ++ err),
          [.NewStore storeCfg, .LoadCovenantlessClient storeSvc,
            .NewCovenantlessClient storeSvc], s3⟩
      | (.ok client, s3) =>
        let args : InitArgs :=
          { WalletType := .SingleKeyWallet
            ClientType := .GrpcClient
            ServerUrl := env.Getenv "ARK_SERVER_URL"
            Password := env.Getenv "WALLET_PASSWORD"
            WithTransactionFeed := false }
        match K.Init client args s3 with
        | (some initErr, s4) =>
          ⟨.error ("client.Init: " ++ initErr),
            [.NewStore storeCfg, .LoadCovenantlessClient storeSvc,
              .NewCovenantlessClient storeSvc, .Init client args], s4⟩
        | (none, s4) =>
          ⟨.ok client,
            [.NewStore storeCfg, .LoadCovenantlessClient storeSvc,
              .NewCovenantlessClient storeSvc, .Init client args], s4⟩

/-! ## Sample collaborators

Concrete engines and tables at which the results below are instantiated. -/

/-- Case tables that leave every non-ASCII rune alone. -/
def asciiOnly : Unicode := { toLower := id, foldRune := id }

/-- An engine whose state counts the calls made.  Every operation succeeds,
except `Settle` when `settleFails` is set; the explorer reports `rate` and
`ListVtxos` reports `(spendable, spent)`. -/
def sampleEngine (settleFails : Bool) (rate : Float64) (spendable spent : List Vtxo) :
    Engine Nat where
  Receive := fun s => (.ok ("tark1offchain", "bcrt1boarding"), s + 1)
  GetConfigData := fun s => (.ok { ExplorerURL := "http://explorer", Network := "regtest" }, s + 1)
  GetFeeRate := fun _ _ s => (.ok rate, s + 1)
  ListVtxos := fun s => (.ok (spendable, spent), s + 1)
  Settle := fun s => if settleFails then (.error "settle failed", s + 1) else (.ok "settle-txid", s + 1)
  Balance := fun _ s => (.ok { OnchainSpendableAmount := 7, OffchainBalance := 0 }, s + 1)
  SendOffChain := fun _ _ _ s => (.ok "offchain-txid", s + 1)
  CollaborativeExit := fun _ _ _ s => (.ok "exit-txid", s + 1)

/-- The fee rate `2 ^ 55`, a `float64` value. -/
def rateTwoPow55 : Float64 := .finite false (2 ^ 52) 3

/-- The `float64` nearest to `0.03`, `0x1.eb851eb851eb8p-6`. -/
def rateThreeHundredths : Float64 := .finite false 0x1eb851eb851eb8 (-58)

/-! ## Vocabulary of the results -/

/-- The listing entry of a spendable output. -/
def spendableEntry (u : Vtxo) : UTXO := { Amount := u.Amount, Locked := false, Spendable := true }

/-- The listing entry of a spent output. -/
def lockedEntry (u : Vtxo) : UTXO := { Amount := u.Amount, Locked := true, Spendable := false }

/-- The sum, over the naturals, of the amounts of the entries of a listing
whose `Spendable` flag is set. -/
def spendableSum (out : List UTXO) : Nat :=
  ((out.filter fun x => x.Spendable).map fun x => x.Amount).sum

/-- Whether a call is `CollaborativeExit`. -/
def Call.isCollaborativeExit : Call → Bool
  | .CollaborativeExit _ _ _ => true
  | _ => false

/-- The response a handler writes for the result of an engine call that yields
a transaction id (lines 234-238 and 253-257). -/
def txidResponse : Except String String → Response
  | .error err => .error (.ofError err) StatusInternalServerError
  | .ok txid => .json (.txid txid)

/-- The body `{"network":"ARK","recipient":"addr1","amount":1000}`. -/
def recipientBody : Body :=
  .object [("network", .string "ARK"), ("recipient", .string "addr1"), ("amount", .uint 1000)]

/-- The body `{"network":"ARK","to":"addr1","amount":1000}`. -/
def toBody : Body :=
  .object [("network", .string "ARK"), ("to", .string "addr1"), ("amount", .uint 1000)]

/-- Whether a start-up call is `Unlock`. -/
def SetupCall.isUnlock {S C : Type} : SetupCall S C → Bool
  | .Unlock _ _ => true
  | _ => false

/-- Whether a start-up call is `NewCovenantlessClient`. -/
def SetupCall.isNewCovenantlessClient {S C : Type} : SetupCall S C → Bool
  | .NewCovenantlessClient _ => true
  | _ => false

/-- Whether a start-up call is `Init`. -/
def SetupCall.isInit {S C : Type} : SetupCall S C → Bool
  | .Init _ _ => true
  | _ => false

/-- The store configuration `setupClient` builds (lines 85-90). -/
def storeConfigOf (env : Env) : StoreConfig :=
  { ConfigStoreType := .FileStore
    AppDataStoreType := .KVStore
    BaseDir := env.Join (env.AppDataDir "ark-wallet" false) "data" }

/-- A sample environment. -/
def sampleEnv : Env where
  AppDataDir := fun name _ => "/home/user/." ++ name
  Join := fun a b => a ++ "/" ++ b
  Getenv := fun key => if key = "WALLET_PASSWORD" then "secret" else "localhost:7070"

/-- A sample SDK whose state counts the calls made: store `1`, a persisted
wallet (client `10`) when `walletExists`, a fresh client `20` otherwise;
`Unlock` fails when `unlockFails`. -/
def sampleSdk (walletExists unlockFails : Bool) : Sdk Nat Nat Nat where
  NewStore := fun _ s => (.ok 1, s + 1)
  LoadCovenantlessClient := fun _ s =>
    if walletExists then (.ok 10, s + 1) else (.error "not initialized", s + 1)
  Unlock := fun _ _ s => if unlockFails then (some "wrong password", s + 1) else (none, s + 1)
  NewCovenantlessClient := fun _ s => (.ok 20, s + 1)
  Init := fun _ _ s => (none, s + 1)

/-- The fee rate `5`, a `float64` value. -/
def rateFive : Float64 := .finite false 5 0

/-- The fee rate `2 ^ 63`, a `float64` value. -/
def rateTwoPow63 : Float64 := .finite false (2 ^ 52) 11

/-! ## Fee estimation: results -/

theorem toUint64_lt (oor : Nat) (x : Float64) : toUint64 oor x < uint64Size := by
  have hpos : 0 < uint64Size := by decide
  cases x with
  | finite neg m e =>
    simp only [toUint64]
    split_ifs with h0 hneg hlt
    · exact hpos
    · exact Nat.mod_lt _ hpos
    · exact hlt
    · exact Nat.mod_lt _ hpos
  | inf neg => exact Nat.mod_lt _ hpos
  | nan => exact Nat.mod_lt _ hpos

/-- Below `2 ^ 61` the product `total * 8` does not wrap and the network fee is
four fifths of the total, rounded down. -/
theorem feeEstimateOf_networkFee_of_lt (t : Nat) (h : t < 2 ^ 61) :
    (feeEstimateOf t).Breakdown.NetworkFee = 4 * t / 5 := by
  simp only [feeEstimateOf, mul64, uint64Size]
  norm_num at h ⊢
  omega

/-- C1 (fails on the code): at the oracle fee rate `2 ^ 55` the total is
`100 * 2 ^ 55 ≥ 2 ^ 61`, the product `total * 8` wraps modulo `2 ^ 64`, and the
reported network fee is `1037629354146162278`, not `floor(4 * total / 5) =
2882303761517117440`. -/
theorem estimateFee_networkFee_wraps :
    (estimateFee 0 (sampleEngine false rateTwoPow55 [] []) 0).response
        = .json (.feeEstimate
            { TotalFee := 3602879701896396800
              Breakdown := { NetworkFee := 1037629354146162278
                             ServiceFee := 2565250347750234522 } })
      ∧ (3602879701896396800 : Nat) < uint64Size
      ∧ 4 * 3602879701896396800 / 5 = (2882303761517117440 : Nat)
      ∧ (feeEstimateOf 3602879701896396800).Breakdown.NetworkFee
          ≠ 4 * 3602879701896396800 / 5 := by
  refine ⟨by decide, by decide, by decide, by decide⟩

/-- The network fee never exceeds a `uint64` total, wrapped product or not, so
the two parts add up to the total. -/
theorem feeEstimateOf_parts (t : Nat) (h : t < uint64Size) :
    (feeEstimateOf t).Breakdown.NetworkFee ≤ t
      ∧ (feeEstimateOf t).Breakdown.NetworkFee + (feeEstimateOf t).Breakdown.ServiceFee = t := by
  simp only [feeEstimateOf, mul64, sub64, uint64Size] at h ⊢
  norm_num at h ⊢
  omega

/-- C2: for every `uint64` total `t`, the estimate built from it has
`NetworkFee ≤ TotalFee`, so the subtraction giving `ServiceFee` does not wrap,
and `NetworkFee + ServiceFee = TotalFee` over the naturals. -/
theorem feeEstimateOf_sum (t : Nat) (h : t < uint64Size) :
    (feeEstimateOf t).TotalFee = t
      ∧ (feeEstimateOf t).Breakdown.NetworkFee ≤ (feeEstimateOf t).TotalFee
      ∧ (feeEstimateOf t).Breakdown.ServiceFee
          = (feeEstimateOf t).TotalFee - (feeEstimateOf t).Breakdown.NetworkFee
      ∧ (feeEstimateOf t).Breakdown.NetworkFee + (feeEstimateOf t).Breakdown.ServiceFee
          = (feeEstimateOf t).TotalFee := by
  simp only [feeEstimateOf, mul64, sub64, uint64Size] at h ⊢
  norm_num at h ⊢
  omega

theorem feeEstimateOf_sum_witness :
    (2 ^ 61 : Nat) < uint64Size
      ∧ (feeEstimateOf (2 ^ 61)).TotalFee = 2 ^ 61
      ∧ (feeEstimateOf (2 ^ 61)).Breakdown.NetworkFee ≤ (feeEstimateOf (2 ^ 61)).TotalFee
      ∧ (feeEstimateOf (2 ^ 61)).Breakdown.ServiceFee
          = (feeEstimateOf (2 ^ 61)).TotalFee - (feeEstimateOf (2 ^ 61)).Breakdown.NetworkFee
      ∧ (feeEstimateOf (2 ^ 61)).Breakdown.NetworkFee
            + (feeEstimateOf (2 ^ 61)).Breakdown.ServiceFee
          = (feeEstimateOf (2 ^ 61)).TotalFee :=
  ⟨by decide, feeEstimateOf_sum (2 ^ 61) (by decide)⟩

/-- Every successful `estimateFee` response carries an estimate whose two parts
add up to the total without wrap-around. -/
theorem estimateFee_sum {σ : Type} (oor : Nat) (E : Engine σ) (s : σ) (est : FeeEstimate)
    (h : (estimateFee oor E s).response = .json (.feeEstimate est)) :
    est.Breakdown.NetworkFee ≤ est.TotalFee
      ∧ est.Breakdown.NetworkFee + est.Breakdown.ServiceFee = est.TotalFee := by
  unfold estimateFee at h
  split at h
  · simp at h
  · split at h
    · simp at h
    · rename_i feeRate _ _
      simp only [Response.json.injEq, Payload.feeEstimate.injEq] at h
      subst h
      exact feeEstimateOf_parts _ (toUint64_lt oor (mulVbytes feeRate))

/-! ## Listing and balance: results -/

theorem foldl_append_singleton {α β : Type} (f : α → β) (l : List α) (init : List β) :
    l.foldl (fun out u => out ++ [f u]) init = init ++ l.map f := by
  induction l generalizing init with
  | nil => simp
  | cons a l ih => simp [ih]

theorem utxosOf_eq (spendable spent : List Vtxo) :
    utxosOf spendable spent = spendable.map spendableEntry ++ spent.map lockedEntry := by
  unfold utxosOf
  simp only [foldl_append_singleton, List.nil_append]
  rfl

theorem filter_spendableEntry (l : List Vtxo) :
    (l.map spendableEntry).filter (fun x => x.Spendable) = l.map spendableEntry := by
  induction l with
  | nil => rfl
  | cons a l ih => simp [spendableEntry] at ih ⊢

theorem filter_lockedEntry (l : List Vtxo) :
    (l.map lockedEntry).filter (fun x => x.Spendable) = [] := by
  induction l with
  | nil => rfl
  | cons a l ih => simp [lockedEntry] at ih ⊢

theorem spendableSum_utxosOf (spendable spent : List Vtxo) :
    spendableSum (utxosOf spendable spent) = (spendable.map fun u => u.Amount).sum := by
  unfold spendableSum
  rw [utxosOf_eq, List.filter_append, filter_spendableEntry, filter_lockedEntry,
    List.append_nil, List.map_map]
  rfl

theorem foldl_add64 (l : List Vtxo) (a : Nat) :
    l.foldl (fun offBal u => add64 offBal u.Amount) (a % uint64Size)
      = (a + (l.map fun u => u.Amount).sum) % uint64Size := by
  induction l generalizing a with
  | nil => simp
  | cons x l ih =>
    simp only [List.foldl_cons, List.map_cons, List.sum_cons]
    have hstep : add64 (a % uint64Size) x.Amount = (a % uint64Size + x.Amount) % uint64Size := rfl
    rw [hstep, ih (a % uint64Size + x.Amount)]
    simp only [uint64Size]
    omega

theorem offchainBalanceOf_eq (spendable : List Vtxo) :
    offchainBalanceOf spendable = (spendable.map fun u => u.Amount).sum % uint64Size := by
  have h := foldl_add64 spendable 0
  simpa [offchainBalanceOf] using h

/-- C3 as stated fails: for the engine response with two spendable outputs of
`2 ^ 63` each, the listing's spendable amounts sum to `2 ^ 64` while the
reported off-chain balance is `0`. -/
theorem balanceHandler_offchainBalance_wraps :
    (listUTXOs (sampleEngine false rateTwoPow55 [⟨"a:0", 2 ^ 63⟩, ⟨"b:0", 2 ^ 63⟩] [⟨"c:0", 5⟩]) 0).response
        = .json (.utxos [⟨2 ^ 63, false, true⟩, ⟨2 ^ 63, false, true⟩, ⟨5, true, false⟩])
      ∧ spendableSum [⟨2 ^ 63, false, true⟩, ⟨2 ^ 63, false, true⟩, ⟨5, true, false⟩] = 2 ^ 64
      ∧ (balanceHandler (sampleEngine false rateTwoPow55 [⟨"a:0", 2 ^ 63⟩, ⟨"b:0", 2 ^ 63⟩] [⟨"c:0", 5⟩]) 0).response
        = .json (.balance { OffchainBalance := 0, OnchainBalance := 7 }) := by
  refine ⟨by decide, by decide, by decide⟩

/-- C3 (amended): for the same engine response `(spendable, spent)`, the
off-chain balance of `balanceHandler` is the sum of the amounts of the entries
of the `listUTXOs` result whose spendable flag is set, reduced modulo `2 ^ 64`;
it is that sum itself whenever the sum is below `2 ^ 64`.  Spent outputs
contribute nothing. -/
theorem balanceHandler_offchainBalance {σ : Type} (E : Engine σ) (s s1 s2 : σ)
    (spendable spent : List Vtxo) (onchain : Balance)
    (hl : E.ListVtxos s = (.ok (spendable, spent), s1))
    (hb : E.Balance false s1 = (.ok onchain, s2)) :
    (listUTXOs E s).response = .json (.utxos (utxosOf spendable spent))
      ∧ (balanceHandler E s).response
          = .json (.balance
              { OffchainBalance := spendableSum (utxosOf spendable spent) % uint64Size
                OnchainBalance := onchain.OnchainSpendableAmount })
      ∧ (spendableSum (utxosOf spendable spent) < uint64Size →
          (balanceHandler E s).response
            = .json (.balance
                { OffchainBalance := spendableSum (utxosOf spendable spent)
                  OnchainBalance := onchain.OnchainSpendableAmount }))
      ∧ spendableSum (utxosOf spendable spent) = spendableSum (utxosOf spendable []) := by
  have hbal : (balanceHandler E s).response
      = .json (.balance
          { OffchainBalance := spendableSum (utxosOf spendable spent) % uint64Size
            OnchainBalance := onchain.OnchainSpendableAmount }) := by
    simp only [balanceHandler, hl, hb, offchainBalanceOf_eq, spendableSum_utxosOf]
  refine ⟨by simp only [listUTXOs, hl], hbal, ?_, ?_⟩
  · intro hlt
    rw [hbal, Nat.mod_eq_of_lt hlt]
  · simp only [spendableSum_utxosOf]

theorem balanceHandler_offchainBalance_witness :
    (listUTXOs (sampleEngine false rateTwoPow55 [⟨"a:0", 40⟩, ⟨"b:0", 2⟩] [⟨"c:0", 5⟩]) 0).response
        = .json (.utxos (utxosOf [⟨"a:0", 40⟩, ⟨"b:0", 2⟩] [⟨"c:0", 5⟩]))
      ∧ (balanceHandler (sampleEngine false rateTwoPow55 [⟨"a:0", 40⟩, ⟨"b:0", 2⟩] [⟨"c:0", 5⟩]) 0).response
          = .json (.balance
              { OffchainBalance := spendableSum (utxosOf [⟨"a:0", 40⟩, ⟨"b:0", 2⟩] [⟨"c:0", 5⟩]) % uint64Size
                OnchainBalance := 7 })
      ∧ (spendableSum (utxosOf [⟨"a:0", 40⟩, ⟨"b:0", 2⟩] [⟨"c:0", 5⟩]) < uint64Size →
          (balanceHandler (sampleEngine false rateTwoPow55 [⟨"a:0", 40⟩, ⟨"b:0", 2⟩] [⟨"c:0", 5⟩]) 0).response
            = .json (.balance
                { OffchainBalance := spendableSum (utxosOf [⟨"a:0", 40⟩, ⟨"b:0", 2⟩] [⟨"c:0", 5⟩])
                  OnchainBalance := 7 }))
      ∧ spendableSum (utxosOf [⟨"a:0", 40⟩, ⟨"b:0", 2⟩] [⟨"c:0", 5⟩])
          = spendableSum (utxosOf [⟨"a:0", 40⟩, ⟨"b:0", 2⟩] []) :=
  balanceHandler_offchainBalance (sampleEngine false rateTwoPow55 [⟨"a:0", 40⟩, ⟨"b:0", 2⟩] [⟨"c:0", 5⟩])
    0 1 2 [⟨"a:0", 40⟩, ⟨"b:0", 2⟩] [⟨"c:0", 5⟩] ⟨7, 0⟩ rfl rfl

/-- C7: for every engine response `(spendable, spent)`, the listing of
`listUTXOs` is the spendable outputs in engine order, each with `Locked =
false` and `Spendable = true`, followed by the spent outputs in engine order,
each with `Locked = true` and `Spendable = false`, amounts preserved; its
length is `len(spendable) + len(spent)` and every entry has `Locked =
!Spendable`. -/
theorem listUTXOs_listing {σ : Type} (E : Engine σ) (s s1 : σ) (spendable spent : List Vtxo)
    (hl : E.ListVtxos s = (.ok (spendable, spent), s1)) :
    ∃ out : List UTXO,
      (listUTXOs E s).response = .json (.utxos out)
        ∧ out = (spendable.map fun u => { Amount := u.Amount, Locked := false, Spendable := true })
            ++ (spent.map fun u => { Amount := u.Amount, Locked := true, Spendable := false })
        ∧ out.length = spendable.length + spent.length
        ∧ ∀ x ∈ out, x.Locked = !x.Spendable := by
  refine ⟨utxosOf spendable spent, by simp only [listUTXOs, hl], utxosOf_eq spendable spent, ?_, ?_⟩
  · simp [utxosOf_eq]
  · intro x hx
    rw [utxosOf_eq, List.mem_append, List.mem_map, List.mem_map] at hx
    rcases hx with ⟨u, _, rfl⟩ | ⟨u, _, rfl⟩ <;> rfl

theorem listUTXOs_listing_witness :
    ∃ out : List UTXO,
      (listUTXOs (sampleEngine false rateTwoPow55 [⟨"a:0", 40⟩, ⟨"b:0", 2⟩] [⟨"c:0", 5⟩]) 0).response
          = .json (.utxos out)
        ∧ out = (([⟨"a:0", 40⟩, ⟨"b:0", 2⟩] : List Vtxo).map
              fun u => { Amount := u.Amount, Locked := false, Spendable := true })
            ++ (([⟨"c:0", 5⟩] : List Vtxo).map
              fun u => { Amount := u.Amount, Locked := true, Spendable := false })
        ∧ out.length = ([⟨"a:0", 40⟩, ⟨"b:0", 2⟩] : List Vtxo).length + ([⟨"c:0", 5⟩] : List Vtxo).length
        ∧ ∀ x ∈ out, x.Locked = !x.Spendable :=
  listUTXOs_listing (sampleEngine false rateTwoPow55 [⟨"a:0", 40⟩, ⟨"b:0", 2⟩] [⟨"c:0", 5⟩])
    0 1 [⟨"a:0", 40⟩, ⟨"b:0", 2⟩] [⟨"c:0", 5⟩] rfl

/-! ## Payment routing: results -/

/-- The off-chain branch of `sendPayment`. -/
theorem sendPayment_of_ark {σ : Type} (U : Unicode) (E : Engine σ) (s : σ) (body : Body)
    (req : SendRequest) (hd : decodeSendRequest U body = .ok req)
    (hark : ToLower U req.Network = "ark") :
    (sendPayment U E s body).calls
        = [.SendOffChain false [{ To := req.To, Amount := req.Amount }] true]
      ∧ (sendPayment U E s body).response
        = txidResponse (E.SendOffChain false [{ To := req.To, Amount := req.Amount }] true s).1
      ∧ (sendPayment U E s body).state
        = (E.SendOffChain false [{ To := req.To, Amount := req.Amount }] true s).2 := by
  simp only [sendPayment, hd, hark, if_true]
  cases hres : E.SendOffChain false [{ To := req.To, Amount := req.Amount }] true s with
  | mk r s1 => cases r <;> simp [txidResponse]

/-- C4: for a decoded request, the engine call of `sendPayment` is determined
by the lower-cased network: `"ark"` gives exactly one `SendOffChain` with the
single receiver `(to, amount)` and the last flag set, `"onchain"` exactly one
`CollaborativeExit` with `(to, amount)`, and every other value the response 400
`invalid network` with no engine call and the engine state untouched. -/
theorem sendPayment_routing {σ : Type} (U : Unicode) (E : Engine σ) (s : σ) (body : Body)
    (req : SendRequest) (hd : decodeSendRequest U body = .ok req) :
    (ToLower U req.Network = "ark" →
        (sendPayment U E s body).calls
            = [.SendOffChain false [{ To := req.To, Amount := req.Amount }] true]
          ∧ (sendPayment U E s body).response
            = txidResponse (E.SendOffChain false [{ To := req.To, Amount := req.Amount }] true s).1
          ∧ (sendPayment U E s body).state
            = (E.SendOffChain false [{ To := req.To, Amount := req.Amount }] true s).2)
      ∧ (ToLower U req.Network = "onchain" →
        (sendPayment U E s body).calls = [.CollaborativeExit req.To req.Amount false]
          ∧ (sendPayment U E s body).response
            = txidResponse (E.CollaborativeExit req.To req.Amount false s).1
          ∧ (sendPayment U E s body).state = (E.CollaborativeExit req.To req.Amount false s).2)
      ∧ (ToLower U req.Network ≠ "ark" → ToLower U req.Network ≠ "onchain" →
        (sendPayment U E s body).response = .error (.literal "invalid network") 400
          ∧ (sendPayment U E s body).calls = []
          ∧ (sendPayment U E s body).state = s) := by
  refine ⟨?_, ?_, ?_⟩
  · exact sendPayment_of_ark U E s body req hd
  · intro hon
    have hne : ¬ (("onchain" : String) = "ark") := by decide
    simp only [sendPayment, hd, hon, hne, if_true, if_false]
    cases hres : E.CollaborativeExit req.To req.Amount false s with
    | mk r s1 => cases r <;> simp [txidResponse]
  · intro h1 h2
    simp [sendPayment, hd, h1, h2, StatusBadRequest]

theorem sendPayment_routing_witness :
    decodeSendRequest asciiOnly toBody = .ok { Network := "ARK", To := "addr1", Amount := 1000 }
      ∧ (sendPayment asciiOnly (sampleEngine false rateTwoPow55 [] []) 0 toBody).calls
          = [.SendOffChain false [{ To := "addr1", Amount := 1000 }] true]
      ∧ (sendPayment asciiOnly (sampleEngine false rateTwoPow55 [] []) 0 toBody).response
          = .json (.txid "offchain-txid") :=
  ⟨rfl,
    ((sendPayment_routing asciiOnly (sampleEngine false rateTwoPow55 [] []) 0 toBody
      { Network := "ARK", To := "addr1", Amount := 1000 } rfl).1 rfl).1,
    ((sendPayment_routing asciiOnly (sampleEngine false rateTwoPow55 [] []) 0 toBody
      { Network := "ARK", To := "addr1", Amount := 1000 } rfl).1 rfl).2.1⟩

/-- C6 as stated fails: for the body
`{"network":"ARK","recipient":"addr1","amount":1000}` the member `recipient`
matches no field of `SendRequest` (the address field is tagged `to`), so the
off-chain send is invoked with the receiver `("", 1000)`, not `(addr1, 1000)`. -/
theorem sendPayment_recipient_ignored :
    decodeSendRequest asciiOnly recipientBody = .ok { Network := "ARK", To := "", Amount := 1000 }
      ∧ (sendPayment asciiOnly (sampleEngine false rateTwoPow55 [] []) 0 recipientBody).calls
          = [.SendOffChain false [{ To := "", Amount := 1000 }] true]
      ∧ (sendPayment asciiOnly (sampleEngine false rateTwoPow55 [] []) 0 recipientBody).calls
          ≠ [.SendOffChain false [{ To := "addr1", Amount := 1000 }] true] := by
  refine ⟨rfl, rfl, by decide⟩

/-- C6 (amended): for the body `{"network":"ARK","to":"addr1","amount":1000}`
the off-chain send is invoked once, with the receiver `(addr1, 1000)`: the
address the engine receives is the value of the body's `to` member, whatever
the engine and the case tables. -/
theorem sendPayment_to_member {σ : Type} (U : Unicode) (E : Engine σ) (s : σ) :
    decodeSendRequest U toBody = .ok { Network := "ARK", To := "addr1", Amount := 1000 }
      ∧ (sendPayment U E s toBody).calls
          = [.SendOffChain false [{ To := "addr1", Amount := 1000 }] true]
      ∧ (sendPayment U E s toBody).response
          = txidResponse (E.SendOffChain false [{ To := "addr1", Amount := 1000 }] true s).1 := by
  have hd : decodeSendRequest U toBody
      = .ok { Network := "ARK", To := "addr1", Amount := 1000 } := rfl
  have hl : ToLower U "ARK" = "ark" := rfl
  have h := sendPayment_of_ark U E s toBody _ hd hl
  exact ⟨hd, h.1, h.2.1⟩

/-- C5: for a decoded request, when `Settle` fails the response is 500 with the
settle error and `CollaborativeExit` is not invoked; when `Settle` succeeds,
`CollaborativeExit` is invoked exactly once, after `Settle` and on the state
`Settle` left, with the request's `(to, amount)`, and the response carries the
exit's transaction id (or, when the exit fails, 500 with the exit's error). -/
theorem withdrawHandler_settle_then_exit {σ : Type} (U : Unicode) (E : Engine σ) (s : σ)
    (body : Body) (req : SendRequest) (hd : decodeSendRequest U body = .ok req) :
    (∀ err s1, E.Settle s = (.error err, s1) →
        (withdrawHandler U E s body).response = .error (.ofError err) 500
          ∧ (withdrawHandler U E s body).calls = [.Settle]
          ∧ (withdrawHandler U E s body).calls.countP Call.isCollaborativeExit = 0)
      ∧ (∀ settleTxid s1, E.Settle s = (.ok settleTxid, s1) →
        (withdrawHandler U E s body).calls = [.Settle, .CollaborativeExit req.To req.Amount false]
          ∧ (withdrawHandler U E s body).calls.countP Call.isCollaborativeExit = 1
          ∧ (withdrawHandler U E s body).response
              = txidResponse (E.CollaborativeExit req.To req.Amount false s1).1
          ∧ (withdrawHandler U E s body).state
              = (E.CollaborativeExit req.To req.Amount false s1).2) := by
  refine ⟨?_, ?_⟩
  · intro err s1 hs
    simp [withdrawHandler, hd, hs, StatusInternalServerError, Call.isCollaborativeExit]
  · intro t s1 hs
    simp only [withdrawHandler, hd, hs]
    cases hres : E.CollaborativeExit req.To req.Amount false s1 with
    | mk r s2 => cases r <;> simp [txidResponse, Call.isCollaborativeExit]

theorem withdrawHandler_settle_then_exit_witness :
    decodeSendRequest asciiOnly
        (.object [("network", .string "onchain"), ("to", .string "addr2"), ("amount", .uint 2000)])
        = .ok { Network := "onchain", To := "addr2", Amount := 2000 }
      ∧ (withdrawHandler asciiOnly (sampleEngine true rateTwoPow55 [] []) 0
          (.object [("network", .string "onchain"), ("to", .string "addr2"),
            ("amount", .uint 2000)])).response = .error (.ofError "settle failed") 500
      ∧ (withdrawHandler asciiOnly (sampleEngine true rateTwoPow55 [] []) 0
          (.object [("network", .string "onchain"), ("to", .string "addr2"),
            ("amount", .uint 2000)])).calls = [.Settle] :=
  ⟨rfl,
    ((withdrawHandler_settle_then_exit asciiOnly (sampleEngine true rateTwoPow55 [] []) 0
      (.object [("network", .string "onchain"), ("to", .string "addr2"), ("amount", .uint 2000)])
      { Network := "onchain", To := "addr2", Amount := 2000 } rfl).1 "settle failed" 1 rfl).1,
    ((withdrawHandler_settle_then_exit asciiOnly (sampleEngine true rateTwoPow55 [] []) 0
      (.object [("network", .string "onchain"), ("to", .string "addr2"), ("amount", .uint 2000)])
      { Network := "onchain", To := "addr2", Amount := 2000 } rfl).1 "settle failed" 1 rfl).2.1⟩

/-- C10: `withdrawHandler` does not read the request's network: two decoded
requests with the same `to` and `amount` give, on the same engine and state,
the same engine calls, the same response and the same final state, and the
response is never 400. -/
theorem withdrawHandler_ignores_network {σ : Type} (U : Unicode) (E : Engine σ) (s : σ)
    (body₁ body₂ : Body) (req₁ req₂ : SendRequest)
    (hd₁ : decodeSendRequest U body₁ = .ok req₁) (hd₂ : decodeSendRequest U body₂ = .ok req₂)
    (hto : req₁.To = req₂.To) (hamount : req₁.Amount = req₂.Amount) :
    (withdrawHandler U E s body₁).calls = (withdrawHandler U E s body₂).calls
      ∧ (withdrawHandler U E s body₁).response = (withdrawHandler U E s body₂).response
      ∧ (withdrawHandler U E s body₁).state = (withdrawHandler U E s body₂).state
      ∧ (withdrawHandler U E s body₁).response.status ≠ 400 := by
  simp only [withdrawHandler, hd₁, hd₂, hto, hamount]
  cases hs : E.Settle s with
  | mk r s1 =>
    cases r with
    | error err => simp [Response.status, StatusInternalServerError]
    | ok t =>
      cases hres : E.CollaborativeExit req₂.To req₂.Amount false s1 with
      | mk r2 s2 => cases r2 <;> simp [Response.status, StatusInternalServerError, hres]

theorem withdrawHandler_ignores_network_witness :
    (sendPayment asciiOnly (sampleEngine false rateTwoPow55 [] []) 0
        (.object [("network", .string "lightning"), ("to", .string "addr2"),
          ("amount", .uint 2000)])).response = .error (.literal "invalid network") 400
      ∧ (withdrawHandler asciiOnly (sampleEngine false rateTwoPow55 [] []) 0
          (.object [("network", .string "lightning"), ("to", .string "addr2"),
            ("amount", .uint 2000)])).calls
        = (withdrawHandler asciiOnly (sampleEngine false rateTwoPow55 [] []) 0
          (.object [("network", .string "ark"), ("to", .string "addr2"),
            ("amount", .uint 2000)])).calls
      ∧ (withdrawHandler asciiOnly (sampleEngine false rateTwoPow55 [] []) 0
          (.object [("network", .string "lightning"), ("to", .string "addr2"),
            ("amount", .uint 2000)])).response
        = (withdrawHandler asciiOnly (sampleEngine false rateTwoPow55 [] []) 0
          (.object [("network", .string "ark"), ("to", .string "addr2"),
            ("amount", .uint 2000)])).response
      ∧ (withdrawHandler asciiOnly (sampleEngine false rateTwoPow55 [] []) 0
          (.object [("network", .string "lightning"), ("to", .string "addr2"),
            ("amount", .uint 2000)])).response.status ≠ 400 :=
  ⟨rfl,
    (withdrawHandler_ignores_network asciiOnly (sampleEngine false rateTwoPow55 [] []) 0
      (.object [("network", .string "lightning"), ("to", .string "addr2"), ("amount", .uint 2000)])
      (.object [("network", .string "ark"), ("to", .string "addr2"), ("amount", .uint 2000)])
      { Network := "lightning", To := "addr2", Amount := 2000 }
      { Network := "ark", To := "addr2", Amount := 2000 } rfl rfl rfl rfl).1,
    (withdrawHandler_ignores_network asciiOnly (sampleEngine false rateTwoPow55 [] []) 0
      (.object [("network", .string "lightning"), ("to", .string "addr2"), ("amount", .uint 2000)])
      (.object [("network", .string "ark"), ("to", .string "addr2"), ("amount", .uint 2000)])
      { Network := "lightning", To := "addr2", Amount := 2000 }
      { Network := "ark", To := "addr2", Amount := 2000 } rfl rfl rfl rfl).2.1,
    (withdrawHandler_ignores_network asciiOnly (sampleEngine false rateTwoPow55 [] []) 0
      (.object [("network", .string "lightning"), ("to", .string "addr2"), ("amount", .uint 2000)])
      (.object [("network", .string "ark"), ("to", .string "addr2"), ("amount", .uint 2000)])
      { Network := "lightning", To := "addr2", Amount := 2000 }
      { Network := "ark", To := "addr2", Amount := 2000 } rfl rfl rfl rfl).2.2.2⟩

/-! ## Session start-up: results -/

/-- C9: when the store opens and loading the persisted wallet succeeds,
`setupClient` calls `Unlock` exactly once, on the loaded client with the
password from the environment, and calls neither `NewCovenantlessClient` nor
`Init`; it returns the loaded client when `Unlock` succeeds and an error, no
client, when `Unlock` fails. -/
theorem setupClient_unlock_path {S C σ : Type} (env : Env) (K : Sdk S C σ) (s s1 s2 : σ)
    (store : S) (client : C)
    (hstore : K.NewStore (storeConfigOf env) s = (.ok store, s1))
    (hload : K.LoadCovenantlessClient store s1 = (.ok client, s2)) :
    (setupClient env K s).calls
        = [.NewStore (storeConfigOf env), .LoadCovenantlessClient store,
            .Unlock client (env.Getenv "WALLET_PASSWORD")]
      ∧ (setupClient env K s).calls.countP SetupCall.isUnlock = 1
      ∧ (setupClient env K s).calls.countP SetupCall.isNewCovenantlessClient = 0
      ∧ (setupClient env K s).calls.countP SetupCall.isInit = 0
      ∧ ((K.Unlock client (env.Getenv "WALLET_PASSWORD") s2).1 = none →
          (setupClient env K s).result = .ok client)
      ∧ (∀ unlockErr, (K.Unlock client (env.Getenv "WALLET_PASSWORD") s2).1 = some unlockErr →
          (setupClient env K s).result = .error ("client.Unlock: " ++ unlockErr)) := by
  unfold storeConfigOf at hstore
  simp only [setupClient, hstore, hload]
  cases hu : K.Unlock client (env.Getenv "WALLET_PASSWORD") s2 with
  | mk r s3 =>
    cases r <;>
      simp [SetupCall.isUnlock, SetupCall.isNewCovenantlessClient, SetupCall.isInit,
        storeConfigOf]

theorem setupClient_unlock_path_witness :
    (setupClient sampleEnv (sampleSdk true false) 0).calls
        = [.NewStore (storeConfigOf sampleEnv), .LoadCovenantlessClient 1,
            .Unlock 10 (sampleEnv.Getenv "WALLET_PASSWORD")]
      ∧ (setupClient sampleEnv (sampleSdk true false) 0).calls.countP SetupCall.isUnlock = 1
      ∧ (setupClient sampleEnv (sampleSdk true false) 0).calls.countP
          SetupCall.isNewCovenantlessClient = 0
      ∧ (setupClient sampleEnv (sampleSdk true false) 0).calls.countP SetupCall.isInit = 0
      ∧ (((sampleSdk true false).Unlock 10 (sampleEnv.Getenv "WALLET_PASSWORD") 2).1 = none →
          (setupClient sampleEnv (sampleSdk true false) 0).result = .ok 10)
      ∧ (∀ unlockErr,
          ((sampleSdk true false).Unlock 10 (sampleEnv.Getenv "WALLET_PASSWORD") 2).1
              = some unlockErr →
          (setupClient sampleEnv (sampleSdk true false) 0).result
            = .error ("client.Unlock: " ++ unlockErr)) :=
  setupClient_unlock_path sampleEnv (sampleSdk true false) 0 1 2 1 10 rfl rfl

/-! ## The fee-rate product: results -/

theorem truncMagnitude_eq_floor (m : Nat) (e : Int) :
    ((truncMagnitude m e : Nat) : ℤ) = ⌊(m : ℚ) * (2 : ℚ) ^ e⌋ := by
  unfold truncMagnitude
  split_ifs with h
  · obtain ⟨k, rfl⟩ := Int.eq_ofNat_of_zero_le h
    have : (m : ℚ) * (2 : ℚ) ^ (k : ℤ) = ((m * 2 ^ k : ℕ) : ℚ) := by
      push_cast
      rw [zpow_natCast]
    rw [this, Int.floor_natCast, Int.toNat_ofNat]
  · have hneg : 0 ≤ -e := by omega
    obtain ⟨k, hk⟩ := Int.eq_ofNat_of_zero_le hneg
    have he : e = -(k : ℤ) := by omega
    have : (m : ℚ) * (2 : ℚ) ^ e = (m : ℚ) / ((2 ^ k : ℕ) : ℚ) := by
      rw [he, zpow_neg, zpow_natCast]
      push_cast
      rw [div_eq_mul_inv]
    rw [this, Rat.floor_natCast_div_natCast, hk, Int.toNat_ofNat]
    push_cast
    rfl

theorem bitLengthAux_lower (fuel x : Nat) (hx : 0 < x) (hf : x ≤ fuel) :
    2 ^ (bitLengthAux fuel x - 1) ≤ x := by
  induction fuel generalizing x with
  | zero => omega
  | succ f ih =>
    unfold bitLengthAux
    have hx0 : x ≠ 0 := by omega
    simp only [hx0, if_false, Nat.add_sub_cancel]
    by_cases h1 : x / 2 = 0
    · cases f with
      | zero => simp [bitLengthAux]; omega
      | succ g => simp [bitLengthAux, h1]; omega
    · have hpos : 0 < x / 2 := Nat.pos_of_ne_zero h1
      have hle : x / 2 ≤ f := by omega
      have := ih (x / 2) hpos hle
      have hb : 1 ≤ bitLengthAux f (x / 2) := by
        cases f with
        | zero => omega
        | succ g => unfold bitLengthAux; simp [h1]
      have hsplit : bitLengthAux f (x / 2) = (bitLengthAux f (x / 2) - 1) + 1 := by omega
      rw [hsplit, pow_succ]
      omega

theorem bitLength_lower (n : Nat) (hn : 0 < n) : 2 ^ (bitLength n - 1) ≤ n :=
  bitLengthAux_lower n n hn le_rfl

theorem roundShift_near (n k : Nat) :
    2 * (roundShift n k * 2 ^ k) ≤ 2 * n + 2 ^ k ∧ 2 * n ≤ 2 * (roundShift n k * 2 ^ k) + 2 ^ k := by
  have hdm := Nat.div_add_mod n (2 ^ k)
  have hlt := Nat.mod_lt n (Nat.two_pow_pos k)
  have hmul : (n / 2 ^ k + 1) * 2 ^ k = n / 2 ^ k * 2 ^ k + 2 ^ k := by ring
  have hcomm : 2 ^ k * (n / 2 ^ k) = n / 2 ^ k * 2 ^ k := by ring
  unfold roundShift
  simp only
  split_ifs <;> (try rw [hmul]) <;> omega

theorem roundShift_zero (n : Nat) : roundShift n 0 = n := by
  simp [roundShift, Nat.mod_one]

theorem roundShift_rel (n : Nat) :
    2 ^ 53 * (roundShift n (bitLength n - 53) * 2 ^ (bitLength n - 53)) ≤ 2 ^ 53 * n + n
      ∧ 2 ^ 53 * n ≤ 2 ^ 53 * (roundShift n (bitLength n - 53) * 2 ^ (bitLength n - 53)) + n := by
  by_cases hk : bitLength n - 53 = 0
  · rw [hk, roundShift_zero]
    omega
  · have hn : 0 < n := by
      rcases Nat.eq_zero_or_pos n with h | h
      · subst h
        exact absurd rfl hk
      · exact h
    have hlow := bitLength_lower n hn
    have hexp : bitLength n - 1 = (bitLength n - 53) + 52 := by omega
    rw [hexp, pow_add] at hlow
    have hnear := roundShift_near n (bitLength n - 53)
    generalize roundShift n (bitLength n - 53) * 2 ^ (bitLength n - 53) = v at hnear ⊢
    generalize 2 ^ (bitLength n - 53) = p at hnear hlow
    norm_num at hlow ⊢
    omega

theorem mulVbytes_finite (neg : Bool) (m : Nat) (e : Int) (x : Float64)
    (h : mulVbytes (.finite neg m e) = x) (hx : ∃ neg' m' e', x = .finite neg' m' e') :
    x = .finite neg (roundShift (m * 100) (bitLength (m * 100) - 53))
          (e + ((bitLength (m * 100) - 53 : Nat) : Int)) := by
  obtain ⟨neg', m', e', rfl⟩ := hx
  simp only [mulVbytes] at h
  split_ifs at h
  exact h.symm

theorem bitLengthAux_le (fuel x j : Nat) (hx : x < 2 ^ j) : bitLengthAux fuel x ≤ j := by
  induction fuel generalizing x j with
  | zero => simp [bitLengthAux]
  | succ f ih =>
    unfold bitLengthAux
    split_ifs with h0
    · omega
    · cases j with
      | zero => simp at hx; omega
      | succ i =>
        have : x / 2 < 2 ^ i := by
          rw [pow_succ] at hx
          omega
        have := ih (x / 2) i this
        omega

theorem toRat_finite_pos (m : Nat) (e : Int) :
    (Float64.finite false m e).toRat = (m : ℚ) * (2 : ℚ) ^ e := by
  simp [Float64.toRat]

theorem toUint64_of_lt (oor m : Nat) (e : Int) (h : (Float64.finite false m e).toRat < 2 ^ 64) :
    ((toUint64 oor (.finite false m e) : Nat) : ℤ) = ⌊(Float64.finite false m e).toRat⌋ := by
  rw [toRat_finite_pos] at h ⊢
  have hfl := truncMagnitude_eq_floor m e
  have hlt : truncMagnitude m e < uint64Size := by
    have h1 : ((truncMagnitude m e : ℕ) : ℚ) ≤ (m : ℚ) * (2 : ℚ) ^ e := by
      have := Int.floor_le ((m : ℚ) * (2 : ℚ) ^ e)
      rw [← hfl] at this
      exact_mod_cast this
    have h2 : ((truncMagnitude m e : ℕ) : ℚ) < ((2 ^ 64 : ℕ) : ℚ) := by
      push_cast
      exact lt_of_le_of_lt h1 h
    exact_mod_cast h2
  rw [← hfl]
  have hval : toUint64 oor (.finite false m e) = truncMagnitude m e := by
    simp only [toUint64]
    by_cases h0 : truncMagnitude m e = 0
    · simp [h0]
    · simp [h0, hlt]
  rw [hval]

theorem mulVbytes_error (m : Nat) (e : Int) (m' : Nat) (e' : Int)
    (hmul : mulVbytes (.finite false m e) = .finite false m' e') :
    |(Float64.finite false m' e').toRat - (Float64.finite false m e).toRat * 100|
      ≤ (Float64.finite false m e).toRat * 100 / 2 ^ 53 := by
  have hfin := mulVbytes_finite false m e _ hmul ⟨_, _, _, rfl⟩
  simp only [Float64.finite.injEq, true_and] at hfin
  obtain ⟨hm, he⟩ := hfin
  rw [toRat_finite_pos, toRat_finite_pos, hm, he]
  have hrel := roundShift_rel (m * 100)
  generalize bitLength (m * 100) - 53 = k at hrel ⊢
  generalize roundShift (m * 100) k = q at hrel ⊢
  have hpos : (0 : ℚ) < (2 : ℚ) ^ e := zpow_pos (by norm_num) e
  have hsplit : (2 : ℚ) ^ (e + (k : ℤ)) = (2 : ℚ) ^ e * (2 : ℚ) ^ k := by
    rw [zpow_add₀ (by norm_num), zpow_natCast]
  rw [hsplit]
  have h1 : ((2 : ℚ) ^ 53) * ((q : ℚ) * (2 : ℚ) ^ k) ≤ (2 : ℚ) ^ 53 * ((m : ℚ) * 100) + (m : ℚ) * 100 := by
    exact_mod_cast hrel.1
  have h2 : ((2 : ℚ) ^ 53) * ((m : ℚ) * 100) ≤ (2 : ℚ) ^ 53 * ((q : ℚ) * (2 : ℚ) ^ k) + (m : ℚ) * 100 := by
    exact_mod_cast hrel.2
  rw [abs_le]
  have hrew : (q : ℚ) * ((2 : ℚ) ^ e * (2 : ℚ) ^ k) - (m : ℚ) * (2 : ℚ) ^ e * 100
      = (2 : ℚ) ^ e * ((q : ℚ) * (2 : ℚ) ^ k - (m : ℚ) * 100) := by ring
  have hrew2 : (m : ℚ) * (2 : ℚ) ^ e * 100 / 2 ^ 53 = (2 : ℚ) ^ e * ((m : ℚ) * 100 / 2 ^ 53) := by ring
  rw [hrew, hrew2, ← mul_neg]
  constructor
  · apply mul_le_mul_of_nonneg_left _ hpos.le
    rw [neg_le, div_eq_mul_inv]
    have : (0 : ℚ) < 2 ^ 53 := by norm_num
    rw [← div_eq_mul_inv, le_div_iff₀ this]
    linarith
  · apply mul_le_mul_of_nonneg_left _ hpos.le
    have : (0 : ℚ) < 2 ^ 53 := by norm_num
    rw [le_div_iff₀ this]
    linarith

theorem mulVbytes_exact (m : Nat) (e : Int) (m' : Nat) (e' : Int)
    (hmul : mulVbytes (.finite false m e) = .finite false m' e') (hm : m * 100 < 2 ^ 53) :
    (Float64.finite false m' e').toRat = (Float64.finite false m e).toRat * 100 := by
  have hfin := mulVbytes_finite false m e _ hmul ⟨_, _, _, rfl⟩
  simp only [Float64.finite.injEq, true_and] at hfin
  obtain ⟨hm', he⟩ := hfin
  have hk : bitLength (m * 100) - 53 = 0 := by
    have := bitLengthAux_le (m * 100) (m * 100) 53 hm
    unfold bitLength
    omega
  rw [hk, roundShift_zero] at hm'
  rw [hk] at he
  rw [toRat_finite_pos, toRat_finite_pos, hm', he]
  push_cast
  simp only [add_zero]
  ring

theorem estimateOfRate_five (oor : Nat) :
    estimateOfRate oor (.finite false 5 0)
      = { TotalFee := 500, Breakdown := { NetworkFee := 400, ServiceFee := 100 } } := by
  have hmul : mulVbytes (.finite false 5 0) = .finite false 500 0 := by decide
  have hconv : toUint64 oor (.finite false 500 0) = 500 := by
    simp [toUint64, truncMagnitude, uint64Size]
  unfold estimateOfRate
  rw [hmul, hconv]
  decide

/-- C8 as stated fails: at the oracle fee rate `0x1.eb851eb851eb8p-6` (the
`float64` nearest to `0.03`) the exact product with `100` is below `3`, with
floor `2`, but the `float64` product rounds to `3.0` and the reported total is
`3`; and at the fee rate `2 ^ 63` the floor of the product is `100 * 2 ^ 63`,
which no `uint64` total equals. -/
theorem estimateFee_totalFee_rounds :
    (estimateFee 0 (sampleEngine false rateThreeHundredths [] []) 0).response
        = .json (.feeEstimate
            { TotalFee := 3, Breakdown := { NetworkFee := 2, ServiceFee := 1 } })
      ∧ ⌊rateThreeHundredths.toRat * 100⌋ = 2
      ∧ (estimateOfRate 0 rateTwoPow63).TotalFee < 2 ^ 64
      ∧ ⌊rateTwoPow63.toRat * 100⌋ = 100 * 2 ^ 63 := by
  refine ⟨by decide, ?_, ?_, ?_⟩
  · simp only [rateThreeHundredths, Float64.toRat]
    norm_num [Int.floor_eq_iff]
  · exact toUint64_lt 0 (mulVbytes rateTwoPow63)
  · simp only [rateTwoPow63, Float64.toRat]
    norm_num [Int.floor_eq_iff]

/-- C8 (amended): for every fee rate `r ≥ 0` returned by the oracle whose
`float64` product `p = r * 100.0` (rounded to nearest, ties to even) is finite
and below `2 ^ 64`, `estimateFee` reports `totalFee = floor(p)`; `p` differs
from the exact product `r * 100` by at most `r * 100 / 2 ^ 53`, and when the
product is exact (`100 m < 2 ^ 53` for the significand `m` of `r`) the total is
`floor(r * 100)`.  For `r = 5` the estimate is `totalFee = 500`, `networkFee =
400`, `serviceFee = 100`. -/
theorem estimateFee_totalFee {σ : Type} (oor : Nat) (E : Engine σ) (s s1 s2 : σ)
    (cfg : ConfigData) (m : Nat) (e : Int) (m' : Nat) (e' : Int)
    (hcfg : E.GetConfigData s = (.ok cfg, s1))
    (hrate : E.GetFeeRate cfg.ExplorerURL cfg.Network s1 = (.ok (.finite false m e), s2))
    (hmul : mulVbytes (.finite false m e) = .finite false m' e')
    (hrange : (Float64.finite false m' e').toRat < 2 ^ 64) :
    (estimateFee oor E s).response
        = .json (.feeEstimate (estimateOfRate oor (.finite false m e)))
      ∧ ((estimateOfRate oor (.finite false m e)).TotalFee : ℤ)
          = ⌊(Float64.finite false m' e').toRat⌋
      ∧ |(Float64.finite false m' e').toRat - (Float64.finite false m e).toRat * 100|
          ≤ (Float64.finite false m e).toRat * 100 / 2 ^ 53
      ∧ (m * 100 < 2 ^ 53 →
          ((estimateOfRate oor (.finite false m e)).TotalFee : ℤ)
            = ⌊(Float64.finite false m e).toRat * 100⌋)
      ∧ estimateOfRate oor (.finite false 5 0)
          = { TotalFee := 500, Breakdown := { NetworkFee := 400, ServiceFee := 100 } } := by
  have htotal : ((estimateOfRate oor (.finite false m e)).TotalFee : ℤ)
      = ⌊(Float64.finite false m' e').toRat⌋ := by
    have := toUint64_of_lt oor m' e' hrange
    simpa [estimateOfRate, feeEstimateOf, hmul] using this
  refine ⟨?_, htotal, mulVbytes_error m e m' e' hmul, ?_, estimateOfRate_five oor⟩
  · simp only [estimateFee, hcfg, hrate]
  · intro hm
    rw [htotal, mulVbytes_exact m e m' e' hmul hm]

theorem estimateFee_totalFee_witness :
    (estimateFee 0 (sampleEngine false rateFive [] []) 0).response
        = .json (.feeEstimate (estimateOfRate 0 (.finite false 5 0)))
      ∧ ((estimateOfRate 0 (.finite false 5 0)).TotalFee : ℤ)
          = ⌊(Float64.finite false 500 0).toRat⌋
      ∧ |(Float64.finite false 500 0).toRat - (Float64.finite false 5 0).toRat * 100|
          ≤ (Float64.finite false 5 0).toRat * 100 / 2 ^ 53
      ∧ (5 * 100 < 2 ^ 53 →
          ((estimateOfRate 0 (.finite false 5 0)).TotalFee : ℤ)
            = ⌊(Float64.finite false 5 0).toRat * 100⌋)
      ∧ estimateOfRate 0 (.finite false 5 0)
          = { TotalFee := 500, Breakdown := { NetworkFee := 400, ServiceFee := 100 } } :=
  estimateFee_totalFee 0 (sampleEngine false rateFive [] []) 0 1 2
    { ExplorerURL := "http://explorer", Network := "regtest" } 5 0 500 0 rfl rfl (by decide)
    (by norm_num [Float64.toRat])

end ArkWallet
